import Mathlib

/-!
Shallow embedding of `src/vs/workbench/browser/parts/menubar/menubarPart.ts`:
the custom menu bar of the workbench.  The embedding covers

* the `ModifierKeyEmitter` singleton (keydown / keyup / window-blur handlers
  over the tracked `IModifierKeyStatus`),
* the `MenubarPart` focus/visibility state machine (`focusState` setter,
  `onModifierKeyToggled`, `setUnfocusedState`, `focusNext`, `focusPrevious`,
  `cleanupCustomMenu`, `showCustomMenu`),
* the configuration getters with their non-boolean fallbacks, and
* the menu-snapshot builder (`updateActions` inside `setupCustomMenubar`,
  `getOpenRecentActions`, `insertActionsBefore`).

DOM side effects (showing/hiding the bar, focusing buttons, opening
dropdowns, firing the visibility emitter) are recorded as an explicit
`Effect` list; object-graph fields that only hold DOM handles (the dropdown
`holder` builder and `widget`) are tracked as presence booleans.
-/

namespace Menubar

/-- `type ModifierKey = 'alt' | 'ctrl' | 'shift'`. -/
inductive ModifierKey where
  | alt
  | ctrl
  | shift
deriving DecidableEq, Repr

/-- The modifier flags of a raw DOM keyboard event, as read by the
`ModifierKeyEmitter` subscriptions (`e.altKey`, `e.ctrlKey`, `e.shiftKey`). -/
structure KeyboardEventFlags where
  altKey : Bool
  ctrlKey : Bool
  shiftKey : Bool
deriving DecidableEq, Repr

/-- `interface IModifierKeyStatus` — the tracker's `_keyStatus` field. -/
structure IModifierKeyStatus where
  altKey : Bool
  shiftKey : Bool
  ctrlKey : Bool
  lastKeyPressed : Option ModifierKey := none
  lastKeyReleased : Option ModifierKey := none
deriving DecidableEq, Repr

/-- The `_keyStatus` value installed by the `ModifierKeyEmitter`
constructor: all three flags false, both last fields undefined. -/
def initialKeyStatus : IModifierKeyStatus :=
  { altKey := false, shiftKey := false, ctrlKey := false }

/-- The emitter's `keydown` subscription.  Returns the updated `_keyStatus`
together with whether `this.fire(...)` ran (it runs iff `lastKeyPressed`
is truthy after the update).  Note the source does not touch
`lastKeyReleased` here. -/
def keydownHandler (st : IModifierKeyStatus) (e : KeyboardEventFlags) :
    IModifierKeyStatus × Bool :=
  let lkp : Option ModifierKey :=
    if e.altKey && !st.altKey then some .alt
    else if e.ctrlKey && !st.ctrlKey then some .ctrl
    else if e.shiftKey && !st.shiftKey then some .shift
    else none
  let st' : IModifierKeyStatus :=
    { st with
      lastKeyPressed := lkp
      altKey := e.altKey
      ctrlKey := e.ctrlKey
      shiftKey := e.shiftKey }
  (st', st'.lastKeyPressed.isSome)

/-- The emitter's `keyup` subscription, symmetric to `keydownHandler` with
`lastKeyReleased`; `lastKeyPressed` is left unchanged. -/
def keyupHandler (st : IModifierKeyStatus) (e : KeyboardEventFlags) :
    IModifierKeyStatus × Bool :=
  let lkr : Option ModifierKey :=
    if !e.altKey && st.altKey then some .alt
    else if !e.ctrlKey && st.ctrlKey then some .ctrl
    else if !e.shiftKey && st.shiftKey then some .shift
    else none
  let st' : IModifierKeyStatus :=
    { st with
      lastKeyReleased := lkr
      altKey := e.altKey
      ctrlKey := e.ctrlKey
      shiftKey := e.shiftKey }
  (st', st'.lastKeyReleased.isSome)

/-- The emitter's window `blur` subscription.  Faithful to the source,
which assigns `shiftKey = false` twice and never assigns `ctrlKey`
(`this._keyStatus.ctrlKey` keeps its previous value); it always fires. -/
def blurHandler (st : IModifierKeyStatus) : IModifierKeyStatus × Bool :=
  ({ st with
      lastKeyPressed := none
      lastKeyReleased := none
      altKey := false
      shiftKey := false }, true)

/-- `enum MenubarState { HIDDEN, VISIBLE, FOCUSED, OPEN }`. -/
inductive MenubarState where
  | HIDDEN
  | VISIBLE
  | FOCUSED
  | OPEN
deriving DecidableEq, Repr

/-- Numeric value of the TypeScript enum member, used for the `>=` / `<`
comparisons in the source. -/
def MenubarState.toNat : MenubarState → Nat
  | .HIDDEN => 0
  | .VISIBLE => 1
  | .FOCUSED => 2
  | .OPEN => 3

/-- The `focusedMenu` field: `{ index, holder?, widget? }`.  The dropdown
holder `Builder` and menu `widget` are DOM objects; we track their
presence. -/
structure FocusedMenu where
  index : Nat
  holder : Bool := false
  widget : Bool := false
deriving DecidableEq, Repr

/-- A JSON-ish configuration value as returned by
`configurationService.getValue` (may have any runtime type). -/
inductive ConfigValue where
  | vBool (b : Bool)
  | vStr (s : String)
  | vNum (n : Int)
  | vNull
  | vUndefined
deriving DecidableEq, Repr

/-- The slice of the configuration store read by the menubar. -/
structure Configuration where
  enableMenuBarMnemonics : ConfigValue
  statusBarVisible : ConfigValue
  activityBarVisible : ConfigValue
  menuBarVisibility : String
deriving DecidableEq, Repr

/-- Getter `currentEnableMenuBarMnemonics`: non-boolean stored values fall
back to `true`. -/
def currentEnableMenuBarMnemonics (c : Configuration) : Bool :=
  match c.enableMenuBarMnemonics with
  | .vBool b => b
  | _ => true

/-- Getter `currentStatusBarVisibility`: non-boolean stored values fall
back to `true`. -/
def currentStatusBarVisibility (c : Configuration) : Bool :=
  match c.statusBarVisible with
  | .vBool b => b
  | _ => true

/-- Getter `currentActivityBarVisibility`: non-boolean stored values fall
back to `true`. -/
def currentActivityBarVisibility (c : Configuration) : Bool :=
  match c.activityBarVisible with
  | .vBool b => b
  | _ => true

/-- DOM / emitter side effects performed by the state machine, in
execution order. -/
inductive Effect where
  | visibilityChange (visible : Bool)
  | scheduleMenuUpdate
  | domBlur (index : Nat)
  | domFocus (index : Nat)
  | domFocusReturn
  | openDropdown (index : Nat)
  | setTitleUnderlines (underline : Bool)
deriving DecidableEq, Repr

/-- The mutable fields of `MenubarPart` that the focus/visibility state
machine reads and writes.  `customMenus` is the length of the rendered
top-level button array; `focusToReturn` records whether a prior focus
target was captured. -/
structure MenubarPartState where
  focusState : MenubarState
  focusedMenu : Option FocusedMenu
  updatePending : Bool
  focusToReturn : Bool
  customMenus : Nat
  config : Configuration
  modifierKeyStatus : Option IModifierKeyStatus := none
deriving DecidableEq, Repr

/-- `get isVisible` — `focusState >= MenubarState.VISIBLE`. -/
def isVisible (s : MenubarPartState) : Bool :=
  MenubarState.VISIBLE.toNat ≤ s.focusState.toNat

/-- `get isFocused` — `focusState >= MenubarState.FOCUSED`. -/
def isFocused (s : MenubarPartState) : Bool :=
  MenubarState.FOCUSED.toNat ≤ s.focusState.toNat

/-- `get isOpen` — `focusState >= MenubarState.OPEN`. -/
def isOpen (s : MenubarPartState) : Bool :=
  MenubarState.OPEN.toNat ≤ s.focusState.toNat

/-- `cleanupCustomMenu`: when a menu is focused, dispose the dropdown
holder and widget (if present) and rebuild `focusedMenu` as the bare
`{ index }` record. -/
def cleanupCustomMenu (s : MenubarPartState) : MenubarPartState :=
  match s.focusedMenu with
  | none => s
  | some fm =>
      { s with focusedMenu := some { index := fm.index, holder := false, widget := false } }

/-- `showCustomMenu(menuIndex)`: build the dropdown holder and menu widget
for the button at `menuIndex` and store them in `focusedMenu`. -/
def showCustomMenu (s : MenubarPartState) (menuIndex : Nat) :
    MenubarPartState × List Effect :=
  ({ s with focusedMenu := some { index := menuIndex, holder := true, widget := true } },
   [Effect.openDropdown menuIndex])

/-- The `focusState` setter of `MenubarPart`: flush a deferred rebuild when
dropping below `FOCUSED`, no-op when the target equals the current state,
otherwise run the target state's entry actions and commit. -/
def setFocusState (s : MenubarPartState) (value : MenubarState) :
    MenubarPartState × List Effect :=
  let flushing : Bool :=
    (MenubarState.FOCUSED.toNat ≤ s.focusState.toNat
      && value.toNat < MenubarState.FOCUSED.toNat)
      && s.updatePending
  let s1 : MenubarPartState :=
    if flushing then { s with updatePending := false } else s
  let e1 : List Effect :=
    if flushing then [Effect.scheduleMenuUpdate] else []
  if value = s1.focusState then (s1, e1)
  else
    match value with
    | .HIDDEN =>
        let e2 : List Effect :=
          if isVisible s1 then [Effect.visibilityChange false] else []
        let s3 := if isOpen s1 then cleanupCustomMenu s1 else s1
        let s4e :=
          if isFocused s3 then
            let s' : MenubarPartState := { s3 with focusedMenu := none }
            if s'.focusToReturn then
              ({ s' with focusToReturn := false }, [Effect.domFocusReturn])
            else (s', ([] : List Effect))
          else (s3, ([] : List Effect))
        ({ s4e.1 with focusState := .HIDDEN }, e1 ++ e2 ++ s4e.2)
    | .VISIBLE =>
        let e2 : List Effect :=
          if !isVisible s1 then [Effect.visibilityChange true] else []
        let s3 := if isOpen s1 then cleanupCustomMenu s1 else s1
        let s4e :=
          if isFocused s3 then
            let eBlur : List Effect :=
              match s3.focusedMenu with
              | some fm => [Effect.domBlur fm.index]
              | none => []
            let s' : MenubarPartState := { s3 with focusedMenu := none }
            if s'.focusToReturn then
              ({ s' with focusToReturn := false }, eBlur ++ [Effect.domFocusReturn])
            else (s', eBlur)
          else (s3, ([] : List Effect))
        ({ s4e.1 with focusState := .VISIBLE }, e1 ++ e2 ++ s4e.2)
    | .FOCUSED =>
        let e2 : List Effect :=
          if !isVisible s1 then [Effect.visibilityChange true] else []
        let s3 := if isOpen s1 then cleanupCustomMenu s1 else s1
        let e3 : List Effect :=
          match s3.focusedMenu with
          | some fm => [Effect.domFocus fm.index]
          | none => []
        ({ s3 with focusState := .FOCUSED }, e1 ++ e2 ++ e3)
    | .OPEN =>
        let e2 : List Effect :=
          if !isVisible s1 then [Effect.visibilityChange true] else []
        match s1.focusedMenu with
        | some fm =>
            let s3e := showCustomMenu s1 fm.index
            ({ s3e.1 with focusState := .OPEN }, e1 ++ e2 ++ s3e.2)
        | none => ({ s1 with focusState := .OPEN }, e1 ++ e2)

/-- `setUnfocusedState`: the resting state is `HIDDEN` in toggle
visibility mode and `VISIBLE` otherwise. -/
def setUnfocusedState (s : MenubarPartState) : MenubarPartState × List Effect :=
  setFocusState s
    (if s.config.menuBarVisibility = "toggle" then .HIDDEN else .VISIBLE)

/-- `onModifierKeyToggled(modifierKeyStatus)`: the menubar's reaction to a
`ModifierKeyEmitter` event. -/
def onModifierKeyToggled (s : MenubarPartState) (mks : IModifierKeyStatus) :
    MenubarPartState × List Effect :=
  let s0 : MenubarPartState := { s with modifierKeyStatus := some mks }
  let altKeyAlone : Bool :=
    (mks.lastKeyPressed == some ModifierKey.alt) && !mks.ctrlKey && !mks.shiftKey
  let allModifiersReleased : Bool := !mks.altKey && !mks.ctrlKey && !mks.shiftKey
  let step1 :=
    if s0.config.menuBarVisibility = "toggle" then
      if altKeyAlone then
        if !isVisible s0 then setFocusState s0 .VISIBLE else (s0, ([] : List Effect))
      else if !allModifiersReleased && !isFocused s0 then setFocusState s0 .HIDDEN
      else (s0, ([] : List Effect))
    else (s0, ([] : List Effect))
  let s1 := step1.1
  let step2 :=
    if allModifiersReleased
        && (mks.lastKeyPressed == some ModifierKey.alt)
        && (mks.lastKeyReleased == some ModifierKey.alt) then
      if !isFocused s1 then
        setFocusState { s1 with focusedMenu := some { index := 0 } } .FOCUSED
      else if !isOpen s1 then setUnfocusedState s1
      else (s1, ([] : List Effect))
    else (s1, ([] : List Effect))
  let s2 := step2.1
  let e3 : List Effect :=
    if currentEnableMenuBarMnemonics s2.config then
      [Effect.setTitleUnderlines mks.altKey]
    else []
  (s2, step1.2 ++ step2.2 ++ e3)

/-- A raw input event consumed by the `ModifierKeyEmitter`. -/
inductive RawInputEvent where
  | keyDown (e : KeyboardEventFlags)
  | keyUp (e : KeyboardEventFlags)
  | windowBlur
deriving DecidableEq, Repr

/-- One emitter subscription step: updated `_keyStatus` plus whether the
emitter fired. -/
def emitterStep (st : IModifierKeyStatus) : RawInputEvent → IModifierKeyStatus × Bool
  | .keyDown e => keydownHandler st e
  | .keyUp e => keyupHandler st e
  | .windowBlur => blurHandler st

/-- Feed one raw input event through the emitter; when it fires, the
menubar's `onModifierKeyToggled` listener runs with the new status. -/
def processModifierEvent (st : IModifierKeyStatus) (s : MenubarPartState)
    (ev : RawInputEvent) : IModifierKeyStatus × MenubarPartState :=
  let r := emitterStep st ev
  if r.2 then (r.1, (onModifierKeyToggled s r.1).1) else (r.1, s)

/-- `focusPrevious`: move focus (or the open dropdown) one button to the
left, wrapping around; JavaScript computes
`(index - 1 + length) % length` in exact integer arithmetic. -/
def focusPrevious (s : MenubarPartState) : MenubarPartState × List Effect :=
  match s.focusedMenu with
  | none => (s, [])
  | some fm =>
      let newFocusedIndex : Nat :=
        ((((fm.index : Int) - 1 + (s.customMenus : Int)) % (s.customMenus : Int)).toNat)
      if newFocusedIndex = fm.index then (s, [])
      else if isOpen s then
        showCustomMenu (cleanupCustomMenu s) newFocusedIndex
      else if isFocused s then
        ({ s with focusedMenu := some { fm with index := newFocusedIndex } },
         [Effect.domFocus newFocusedIndex])
      else (s, [])

/-- `focusNext`: move focus (or the open dropdown) one button to the
right, wrapping around (`(index + 1) % length`). -/
def focusNext (s : MenubarPartState) : MenubarPartState × List Effect :=
  match s.focusedMenu with
  | none => (s, [])
  | some fm =>
      let newFocusedIndex : Nat := (fm.index + 1) % s.customMenus
      if newFocusedIndex = fm.index then (s, [])
      else if isOpen s then
        showCustomMenu (cleanupCustomMenu s) newFocusedIndex
      else if isFocused s then
        ({ s with focusedMenu := some { fm with index := newFocusedIndex } },
         [Effect.domFocus newFocusedIndex])
      else (s, [])

/-! ## Menu snapshot building

`updateActions` (a closure inside `setupCustomMenubar`) flattens the
registry's ordered action groups into one displayable list, injecting
recently-opened entries before the `workbench.action.openRecent` action
and expanding submenu actions recursively.  We model a registry action by
its command id (plus nested groups for submenu items); the display label
and checked flag that `calculateActionLabel` / `setCheckedStatus`
recompute are presentation data none of the claims mention, so they are
not carried. -/

/-- A built menu entry: a plain action (`Action`, identified by its
command id), a `Separator`, or a `SubmenuAction` wrapping the recursively
built items. -/
inductive MAction where
  | act (id : String)
  | separator
  | submenuAct (items : List MAction)

/-- A raw registry action as returned by `menu.getActions()`: either a
plain `MenuItemAction` or a `SubmenuItemAction` whose submenu yields the
given groups. -/
inductive RegAction where
  | act (id : String)
  | submenu (id : String) (groups : List (List RegAction))

/-- The command id of a registry action (`action.id`). -/
def RegAction.actionId : RegAction → String
  | .act id => id
  | .submenu id _ => id

/-- `IRecentlyOpened`: the `{ workspaces, files }` lists (entries stand in
for workspace/file identifiers). -/
structure RecentlyOpened where
  workspaces : List String
  files : List String
deriving DecidableEq, Repr

/-- `MenubarPart.MAX_MENU_RECENT_ENTRIES = 5`. -/
def MAX_MENU_RECENT_ENTRIES : Nat := 5

/-- The loop `for (i = 0; i < MAX_MENU_RECENT_ENTRIES && i < list.length;
i++) result.push(createOpenRecentMenuAction(list[i], commandId, ...))`:
one action per entry among the first five, carrying the command id. -/
def recentEntries (paths : List String) (commandId : String) : List MAction :=
  (paths.take MAX_MENU_RECENT_ENTRIES).map (fun _ => MAction.act commandId)

/-- `getOpenRecentActions`: empty when `recentlyOpened` has not been
loaded; otherwise up to five workspace entries followed by a separator
(when any), then up to five file entries followed by a separator (when
any). -/
def getOpenRecentActions : Option RecentlyOpened → List MAction
  | none => []
  | some ro =>
      (if 0 < ro.workspaces.length then
        recentEntries ro.workspaces "openRecentWorkspace" ++ [MAction.separator]
      else []) ++
      (if 0 < ro.files.length then
        recentEntries ro.files "openRecentFile" ++ [MAction.separator]
      else [])

/-- `insertActionsBefore(nextAction, target)`: actions pushed ahead of the
action with id `workbench.action.openRecent`; nothing for any other id. -/
def insertActionsBefore (ro : Option RecentlyOpened) (nextAction : RegAction) :
    List MAction :=
  if nextAction.actionId = "workbench.action.openRecent" then
    getOpenRecentActions ro
  else []

mutual

/-- The body of `updateActions` for one registry action: the
`insertActionsBefore` injection, then either the recursively built
`SubmenuAction` or the plain action itself. -/
def buildActionEntries (ro : Option RecentlyOpened) : RegAction → List MAction
  | .act id => insertActionsBefore ro (.act id) ++ [MAction.act id]
  | .submenu id gs =>
      insertActionsBefore ro (.submenu id gs)
        ++ [MAction.submenuAct ((buildGroupsRaw ro gs).dropLast)]

/-- The inner loop of `updateActions` over one group's actions. -/
def buildGroupEntries (ro : Option RecentlyOpened) : List RegAction → List MAction
  | [] => []
  | a :: rest => buildActionEntries ro a ++ buildGroupEntries ro rest

/-- The outer loop of `updateActions`: each group's entries followed by a
`Separator` pushed after every group (before the final `target.pop()`). -/
def buildGroupsRaw (ro : Option RecentlyOpened) : List (List RegAction) → List MAction
  | [] => []
  | g :: rest => (buildGroupEntries ro g ++ [MAction.separator]) ++ buildGroupsRaw ro rest

end

/-- `updateActions(menu, target)`: build every group, pushing a separator
after each, then `target.pop()` the trailing element. -/
def updateActions (ro : Option RecentlyOpened) (groups : List (List RegAction)) :
    List MAction :=
  (buildGroupsRaw ro groups).dropLast

/-- Whether a built entry is a `Separator`. -/
def isSep : MAction → Bool
  | .separator => true
  | _ => false

/-- Number of separators at the top level of a built action list. -/
def countSeparators (l : List MAction) : Nat :=
  l.countP (fun a => isSep a)

/-- Two adjacent entries are acceptable unless both are separators. -/
def SepOk (a b : MAction) : Prop :=
  isSep a = false ∨ isSep b = false

/-- No two adjacent entries of the list are both separators. -/
def NoAdjacentSeparators (l : List MAction) : Prop :=
  List.Chain' SepOk l

/-- The list does not start with a separator. -/
def NoLeadingSeparator (l : List MAction) : Prop :=
  ∀ a ∈ l.head?, isSep a = false

/-- The list does not end with a separator. -/
def NoTrailingSeparator (l : List MAction) : Prop :=
  ∀ a ∈ l.getLast?, isSep a = false

/-- A non-empty list with no leading, trailing or adjacent separators. -/
def GoodBlock (l : List MAction) : Prop :=
  l ≠ [] ∧ NoLeadingSeparator l ∧ NoTrailingSeparator l ∧ NoAdjacentSeparators l

/-- Whether some top-level registry action of these groups is the
`workbench.action.openRecent` insertion point. -/
def hasOpenRecentTrigger (groups : List (List RegAction)) : Bool :=
  groups.any (fun g => g.any (fun a => a.actionId == "workbench.action.openRecent"))

/-- A toggle-visibility-mode configuration with valid boolean settings. -/
def toggleConfig : Configuration :=
  { enableMenuBarMnemonics := .vBool true, statusBarVisible := .vBool true,
    activityBarVisible := .vBool true, menuBarVisibility := "toggle" }

/-- The resting menubar state right after construction in toggle mode:
hidden, nothing focused, nine top-level buttons rendered. -/
def toggleHiddenInit : MenubarPartState :=
  { focusState := .HIDDEN, focusedMenu := none, updatePending := false,
    focusToReturn := false, customMenus := 9, config := toggleConfig }

/-! ## State machine lemmas -/

/-- Setting `focusState` to the value it already holds returns the state
unchanged with no effects: the deferred-rebuild flush guard
(`>= FOCUSED` and `< FOCUSED` simultaneously) cannot fire, and the
equality early-return is taken before any entry action. -/
theorem setFocusState_self (s : MenubarPartState) :
    setFocusState s s.focusState = (s, []) := by
  rcases s with ⟨fs, fm, up, ftr, cm, cfg, mks⟩
  cases fs <;> cases up <;>
    simp +decide [setFocusState, MenubarState.toNat]

/-- While a modifier status with `ctrlKey` held is being processed in
toggle mode with the bar hidden, `onModifierKeyToggled` only records the
status: `altKeyAlone` is false, `allModifiersReleased` is false, and the
resulting `setFocusState HIDDEN` is the identity. -/
theorem onModifierKeyToggled_ctrl_held_hidden (s : MenubarPartState)
    (mks : IModifierKeyStatus)
    (ht : s.config.menuBarVisibility = "toggle")
    (hh : s.focusState = MenubarState.HIDDEN)
    (hc : mks.ctrlKey = true) :
    (onModifierKeyToggled s mks).1 = { s with modifierKeyStatus := some mks } := by
  unfold onModifierKeyToggled
  have hself := setFocusState_self { s with modifierKeyStatus := some mks }
  simp only [ht, hc, hh] at *
  simp +decide [isFocused, MenubarState.toNat, hh, hself]

/-- A key-down whose event carries `ctrlKey = true`, processed while the
bar is hidden in toggle mode, leaves the bar hidden and the configuration
untouched. -/
theorem processKeydown_ctrl_keeps_hidden (st : IModifierKeyStatus)
    (s : MenubarPartState) (e : KeyboardEventFlags)
    (ht : s.config.menuBarVisibility = "toggle")
    (hh : s.focusState = MenubarState.HIDDEN)
    (hc : e.ctrlKey = true) :
    (processModifierEvent st s (.keyDown e)).2.focusState = MenubarState.HIDDEN
    ∧ (processModifierEvent st s (.keyDown e)).2.config = s.config := by
  have hc' : ((keydownHandler st e).1).ctrlKey = true := by
    simp [keydownHandler, hc]
  simp only [processModifierEvent, emitterStep]
  split
  · rw [onModifierKeyToggled_ctrl_held_hidden s (keydownHandler st e).1 ht hh hc']
    exact ⟨hh, rfl⟩
  · exact ⟨hh, rfl⟩

/-! ## Claim theorems: state machine and modifier tracker -/

/-- C1: for every menubar state, setting `focusState` to the value it
already holds changes nothing — the `MenubarPart` state (including
`focusedMenu`) is returned unmodified and no effects are produced, so no
entry actions run, the bar is neither shown nor hidden, no dropdown is
opened or closed, and no visibility notification fires. -/
theorem focusState_setter_same_state_noop (s : MenubarPartState) :
    setFocusState s s.focusState = (s, []) :=
  setFocusState_self s

/-- C2: starting hidden in toggle mode, a key-down of Alt alone makes the
bar `VISIBLE`; the following key-up releasing Alt with every modifier up
(no other key engaged in between) makes it `FOCUSED` with
`focusedMenu.index = 0`. -/
theorem altTap_scenario_reaches_focused_index0 :
    ((processModifierEvent initialKeyStatus toggleHiddenInit
        (.keyDown { altKey := true, ctrlKey := false, shiftKey := false })).2.focusState
      = MenubarState.VISIBLE)
    ∧ ((processModifierEvent
          (processModifierEvent initialKeyStatus toggleHiddenInit
            (.keyDown { altKey := true, ctrlKey := false, shiftKey := false })).1
          (processModifierEvent initialKeyStatus toggleHiddenInit
            (.keyDown { altKey := true, ctrlKey := false, shiftKey := false })).2
          (.keyUp { altKey := false, ctrlKey := false, shiftKey := false })).2.focusState
      = MenubarState.FOCUSED)
    ∧ ((processModifierEvent
          (processModifierEvent initialKeyStatus toggleHiddenInit
            (.keyDown { altKey := true, ctrlKey := false, shiftKey := false })).1
          (processModifierEvent initialKeyStatus toggleHiddenInit
            (.keyDown { altKey := true, ctrlKey := false, shiftKey := false })).2
          (.keyUp { altKey := false, ctrlKey := false,
                    shiftKey := false })).2.focusedMenu.map FocusedMenu.index
      = some 0) := by
  decide

/-- C3: in toggle visibility mode with the bar hidden, processing
ctrl-down and then shift-down (alt never pressed) leaves the state
`HIDDEN` after each of the two events: a modifier chord never reveals the
hidden bar. -/
theorem modifier_chord_never_reveals_hidden_bar (st : IModifierKeyStatus)
    (s : MenubarPartState)
    (ht : s.config.menuBarVisibility = "toggle")
    (hh : s.focusState = MenubarState.HIDDEN) :
    (processModifierEvent st s
        (.keyDown { altKey := false, ctrlKey := true, shiftKey := false })).2.focusState
      = MenubarState.HIDDEN
    ∧ ((processModifierEvent
          (processModifierEvent st s
            (.keyDown { altKey := false, ctrlKey := true, shiftKey := false })).1
          (processModifierEvent st s
            (.keyDown { altKey := false, ctrlKey := true, shiftKey := false })).2
          (.keyDown { altKey := false, ctrlKey := true, shiftKey := true })).2.focusState
      = MenubarState.HIDDEN) := by
  obtain ⟨h1, h1c⟩ := processKeydown_ctrl_keeps_hidden st s
    { altKey := false, ctrlKey := true, shiftKey := false } ht hh rfl
  refine ⟨h1, ?_⟩
  exact (processKeydown_ctrl_keeps_hidden _ _
    { altKey := false, ctrlKey := true, shiftKey := true } (h1c ▸ ht) h1 rfl).1

/-- Witness for C3 at a concrete hidden toggle-mode state. -/
theorem modifier_chord_never_reveals_hidden_bar_witness :
    (processModifierEvent initialKeyStatus
      { focusState := .HIDDEN, focusedMenu := none, updatePending := false,
        focusToReturn := false, customMenus := 9,
        config := { enableMenuBarMnemonics := .vBool true,
                    statusBarVisible := .vBool true,
                    activityBarVisible := .vBool true,
                    menuBarVisibility := "toggle" } }
      (.keyDown { altKey := false, ctrlKey := true, shiftKey := false })).2.focusState
      = MenubarState.HIDDEN :=
  (modifier_chord_never_reveals_hidden_bar initialKeyStatus _ rfl rfl).1

/-- JavaScript's `(index - 1 + length) % length` (exact integer
arithmetic), written over `Nat`. -/
theorem jsPrevIndex_eq (i n : Nat) (h : 1 ≤ n) :
    (((i : Int) - 1 + (n : Int)) % (n : Int)).toNat = (i + n - 1) % n := by
  have h1 : ((i : Int) - 1 + (n : Int)) = ((i + n - 1 : Nat) : Int) := by omega
  rw [h1, ← Int.natCast_mod, Int.toNat_natCast]

/-- Stepping right then left around `n` buttons returns to the start. -/
theorem wrap_roundtrip (i n : Nat) (hi : i < n) :
    (((i + 1) % n) + n - 1) % n = i := by
  rcases Nat.lt_or_ge (i + 1) n with hlt | hge
  · rw [Nat.mod_eq_of_lt hlt]
    have h2 : i + 1 + n - 1 = i + n := by omega
    rw [h2, Nat.add_mod_right, Nat.mod_eq_of_lt hi]
  · have hn : i + 1 = n := by omega
    rw [hn, Nat.mod_self]
    have h2 : 0 + n - 1 = n - 1 := by omega
    rw [h2, Nat.mod_eq_of_lt (by omega)]
    omega

/-- The wrap-around successor is a fixed point exactly when there is a
single button. -/
theorem wrap_next_self (i n : Nat) (hi : i < n) : (i + 1) % n = i ↔ n = 1 := by
  constructor
  · intro h
    rcases Nat.lt_or_ge (i + 1) n with hlt | hge
    · rw [Nat.mod_eq_of_lt hlt] at h; omega
    · have hn : i + 1 = n := by omega
      rw [hn, Nat.mod_self] at h; omega
  · intro h
    subst h
    have h0 : i = 0 := by omega
    subst h0
    rfl

/-- The wrap-around predecessor is a fixed point exactly when there is a
single button. -/
theorem wrap_prev_self (i n : Nat) (hi : i < n) : (i + n - 1) % n = i ↔ n = 1 := by
  constructor
  · intro h
    rcases Nat.eq_zero_or_pos i with h0 | hpos
    · subst h0
      rw [Nat.zero_add, Nat.mod_eq_of_lt (by omega)] at h
      omega
    · have h2 : i + n - 1 = (i - 1) + n := by omega
      rw [h2, Nat.add_mod_right, Nat.mod_eq_of_lt (by omega)] at h
      omega
  · intro h
    subst h
    have h0 : i = 0 := by omega
    subst h0
    rfl

/-- `focusNext` leaves everything unchanged when no menu is focused. -/
theorem focusNext_none (s : MenubarPartState) (h : s.focusedMenu = none) :
    focusNext s = (s, []) := by
  simp [focusNext, h]

/-- `focusPrevious` leaves everything unchanged when no menu is focused. -/
theorem focusPrevious_none (s : MenubarPartState) (h : s.focusedMenu = none) :
    focusPrevious s = (s, []) := by
  simp [focusPrevious, h]

/-- `focusNext` is a no-op with a single button. -/
theorem focusNext_single (s : MenubarPartState) (fm : FocusedMenu)
    (h : s.focusedMenu = some fm) (h1 : s.customMenus = 1)
    (hi : fm.index < s.customMenus) : focusNext s = (s, []) := by
  have h0 : fm.index = 0 := by omega
  simp [focusNext, h, h1, h0]

/-- `focusPrevious` is a no-op with a single button. -/
theorem focusPrevious_single (s : MenubarPartState) (fm : FocusedMenu)
    (h : s.focusedMenu = some fm) (h1 : s.customMenus = 1)
    (hi : fm.index < s.customMenus) : focusPrevious s = (s, []) := by
  have h0 : fm.index = 0 := by omega
  rw [focusPrevious, h]
  norm_num [h1, h0]

/-- In the `OPEN` state, `focusNext` moves the open dropdown to the
wrap-around successor button. -/
theorem focusNext_open (s : MenubarPartState) (fm : FocusedMenu) (hfm : s.focusedMenu = some fm) (hOpen : isOpen s = true) (hne : (fm.index + 1) % s.customMenus ≠ fm.index) :
    focusNext s = ({ s with focusedMenu := some { index := (fm.index + 1) % s.customMenus, holder := true, widget := true } }, [Effect.openDropdown ((fm.index + 1) % s.customMenus)]) := by
  rw [focusNext, hfm]
  simp [if_neg hne, hOpen, cleanupCustomMenu, hfm, showCustomMenu]

/-- In the `FOCUSED` (not open) state, `focusNext` moves keyboard focus to
the wrap-around successor button. -/
theorem focusNext_focused (s : MenubarPartState) (fm : FocusedMenu) (hfm : s.focusedMenu = some fm) (hOpen : isOpen s = false) (hFoc : isFocused s = true) (hne : (fm.index + 1) % s.customMenus ≠ fm.index) :
    focusNext s = ({ s with focusedMenu := some { fm with index := (fm.index + 1) % s.customMenus } }, [Effect.domFocus ((fm.index + 1) % s.customMenus)]) := by
  rw [focusNext, hfm]
  simp [if_neg hne, hOpen, hFoc]

/-- Below `FOCUSED`, `focusNext` changes nothing. -/
theorem focusNext_rest (s : MenubarPartState) (fm : FocusedMenu) (hfm : s.focusedMenu = some fm) (hOpen : isOpen s = false) (hFoc : isFocused s = false) :
    focusNext s = (s, []) := by
  rw [focusNext, hfm]
  by_cases h : (fm.index + 1) % s.customMenus = fm.index
  · simp [h]
  · simp [h, hOpen, hFoc]

/-- In the `OPEN` state, `focusPrevious` moves the open dropdown to the
wrap-around predecessor button. -/
theorem focusPrevious_open (s : MenubarPartState) (fm : FocusedMenu) (hfm : s.focusedMenu = some fm) (hn : 1 ≤ s.customMenus) (hOpen : isOpen s = true) (hne : (fm.index + s.customMenus - 1) % s.customMenus ≠ fm.index) :
    focusPrevious s = ({ s with focusedMenu := some { index := (fm.index + s.customMenus - 1) % s.customMenus, holder := true, widget := true } }, [Effect.openDropdown ((fm.index + s.customMenus - 1) % s.customMenus)]) := by
  rw [focusPrevious, hfm]
  simp only [jsPrevIndex_eq fm.index s.customMenus hn]
  simp [if_neg hne, hOpen, cleanupCustomMenu, hfm, showCustomMenu]

/-- In the `FOCUSED` (not open) state, `focusPrevious` moves keyboard
focus to the wrap-around predecessor button. -/
theorem focusPrevious_focused (s : MenubarPartState) (fm : FocusedMenu) (hfm : s.focusedMenu = some fm) (hn : 1 ≤ s.customMenus) (hOpen : isOpen s = false) (hFoc : isFocused s = true) (hne : (fm.index + s.customMenus - 1) % s.customMenus ≠ fm.index) :
    focusPrevious s = ({ s with focusedMenu := some { fm with index := (fm.index + s.customMenus - 1) % s.customMenus } }, [Effect.domFocus ((fm.index + s.customMenus - 1) % s.customMenus)]) := by
  rw [focusPrevious, hfm]
  simp only [jsPrevIndex_eq fm.index s.customMenus hn]
  simp [if_neg hne, hOpen, hFoc]

/-- Below `FOCUSED`, `focusPrevious` changes nothing. -/
theorem focusPrevious_rest (s : MenubarPartState) (fm : FocusedMenu) (hfm : s.focusedMenu = some fm) (hn : 1 ≤ s.customMenus) (hOpen : isOpen s = false) (hFoc : isFocused s = false) :
    focusPrevious s = (s, []) := by
  rw [focusPrevious, hfm]
  simp only [jsPrevIndex_eq fm.index s.customMenus hn]
  by_cases h : (fm.index + s.customMenus - 1) % s.customMenus = fm.index
  · simp [h]
  · simp [h, hOpen, hFoc]

/-- C4: from a focused index `i < n` (any interaction state, `n ≥ 1`
buttons), `focusNext` followed by `focusPrevious` returns the focused
index to `i` (wrap-around modulo `n`) and preserves `focusState`; with
exactly one button, or with no menu focused, both calls return the state
unchanged with no effects. -/
theorem focusNext_focusPrevious_inverse :
    (∀ (s : MenubarPartState) (fm : FocusedMenu),
      s.focusedMenu = some fm → fm.index < s.customMenus →
      (focusPrevious (focusNext s).1).1.focusedMenu.map FocusedMenu.index
          = some fm.index
      ∧ (focusPrevious (focusNext s).1).1.focusState = s.focusState)
    ∧ (∀ (s : MenubarPartState) (fm : FocusedMenu),
      s.focusedMenu = some fm → fm.index < s.customMenus → s.customMenus = 1 →
      focusNext s = (s, []) ∧ focusPrevious s = (s, []))
    ∧ (∀ s : MenubarPartState, s.focusedMenu = none →
      focusNext s = (s, []) ∧ focusPrevious s = (s, [])) := by
  refine ⟨?_, ?_, ?_⟩
  · intro s fm hfm hi
    have hn : 1 ≤ s.customMenus := by omega
    by_cases h1 : s.customMenus = 1
    · rw [focusNext_single s fm hfm h1 hi, focusPrevious_single s fm hfm h1 hi, hfm]
      exact ⟨rfl, rfl⟩
    · have hne : (fm.index + 1) % s.customMenus ≠ fm.index := by
        rw [Ne, wrap_next_self fm.index s.customMenus hi]
        exact h1
      have hroundtrip : (((fm.index + 1) % s.customMenus) + s.customMenus - 1) % s.customMenus = fm.index :=
        wrap_roundtrip fm.index s.customMenus hi
      have hne2 : (((fm.index + 1) % s.customMenus) + s.customMenus - 1) % s.customMenus ≠ (fm.index + 1) % s.customMenus := by
        rw [hroundtrip]
        exact fun h => hne h.symm
      by_cases hOpen : isOpen s = true
      · rw [focusNext_open s fm hfm hOpen hne]
        dsimp only
        rw [focusPrevious_open { s with focusedMenu := some { index := (fm.index + 1) % s.customMenus, holder := true, widget := true } } { index := (fm.index + 1) % s.customMenus, holder := true, widget := true } rfl hn hOpen hne2]
        simp [hroundtrip]
      · have hOpen' : isOpen s = false := by simpa using hOpen
        by_cases hFoc : isFocused s = true
        · rw [focusNext_focused s fm hfm hOpen' hFoc hne]
          dsimp only
          rw [focusPrevious_focused { s with focusedMenu := some { fm with index := (fm.index + 1) % s.customMenus } } { fm with index := (fm.index + 1) % s.customMenus } rfl hn hOpen' hFoc hne2]
          simp [hroundtrip]
        · have hFoc' : isFocused s = false := by simpa using hFoc
          rw [focusNext_rest s fm hfm hOpen' hFoc']
          dsimp only
          rw [focusPrevious_rest s fm hfm hn hOpen' hFoc', hfm]
          exact ⟨rfl, rfl⟩
  · intro s fm hfm hi h1
    exact ⟨focusNext_single s fm hfm h1 hi, focusPrevious_single s fm hfm h1 hi⟩
  · intro s h
    exact ⟨focusNext_none s h, focusPrevious_none s h⟩

/-- Witness for C4: a concrete focused state with three buttons, focused
index 2; next wraps to 0 and previous returns to 2. -/
theorem focusNext_focusPrevious_inverse_witness :
    (focusPrevious (focusNext
      { focusState := .FOCUSED, focusedMenu := some { index := 2 },
        updatePending := false, focusToReturn := false, customMenus := 3,
        config := toggleConfig }).1).1.focusedMenu.map FocusedMenu.index
      = some 2 :=
  (focusNext_focusPrevious_inverse.1
    { focusState := .FOCUSED, focusedMenu := some { index := 2 },
      updatePending := false, focusToReturn := false, customMenus := 3,
      config := toggleConfig }
    { index := 2 } rfl (by decide)).1

/-- C7: the claim states that after a window-blur event all three tracked
modifier flags are false.  The blur subscription in the source assigns
`shiftKey = false` twice and never resets `ctrlKey`, so a blur received
while `ctrlKey` is held leaves `ctrlKey = true` — the code contradicts
the claim (and the module's own intent of not leaving stale modifier
state); the claim is taken as correct and the code as the bug.  This
theorem evaluates the handler at the failing input: the last fields are
cleared, `altKey` and `shiftKey` are reset and the event fires
unconditionally, but `ctrlKey` survives. -/
theorem blurHandler_at_failing_input :
    (blurHandler { altKey := false, shiftKey := false, ctrlKey := true,
                       lastKeyPressed := some .ctrl }).1.ctrlKey = true
    ∧ (blurHandler { altKey := false, shiftKey := false, ctrlKey := true,
                       lastKeyPressed := some .ctrl }).1.altKey = false
    ∧ (blurHandler { altKey := false, shiftKey := false, ctrlKey := true,
                       lastKeyPressed := some .ctrl }).1.shiftKey = false
    ∧ (blurHandler { altKey := false, shiftKey := false, ctrlKey := true,
                       lastKeyPressed := some .ctrl }).1.lastKeyPressed = none
    ∧ (blurHandler { altKey := false, shiftKey := false, ctrlKey := true,
                       lastKeyPressed := some .ctrl }).1.lastKeyReleased = none
    ∧ (blurHandler { altKey := false, shiftKey := false, ctrlKey := true,
                       lastKeyPressed := some .ctrl }).2 = true := by
  decide

/-- C8 counterexample: a key-down on which `ctrlKey` transitions from
not-pressed to pressed (so `lastKeyPressed` is set) does NOT clear
`lastKeyReleased` — a stale `lastKeyReleased = alt` survives, refuting
the claim that it is cleared on such a key-down. -/
theorem keydown_keeps_lastKeyReleased_counterexample :
    ((keydownHandler
        { altKey := false, shiftKey := false, ctrlKey := false,
          lastKeyPressed := none, lastKeyReleased := some .alt }
        { altKey := false, ctrlKey := true, shiftKey := false }).1.lastKeyPressed
      = some ModifierKey.ctrl)
    ∧ ((keydownHandler
        { altKey := false, shiftKey := false, ctrlKey := false,
          lastKeyPressed := none, lastKeyReleased := some .alt }
        { altKey := false, ctrlKey := true, shiftKey := false }).1.lastKeyReleased
      = some ModifierKey.alt) := by
  decide

/-- C8 (amended): on key-down the tracker records the first modifier (in
alt, ctrl, shift priority order) that transitions from not-pressed to
pressed as `lastKeyPressed`, records `none` when no modifier transitions,
leaves `lastKeyReleased` unchanged, and fires exactly when
`lastKeyPressed` was set during the call. -/
theorem keydownHandler_amended_spec (st : IModifierKeyStatus)
    (e : KeyboardEventFlags) :
    ((keydownHandler st e).1.lastKeyReleased = st.lastKeyReleased)
    ∧ ((keydownHandler st e).2 = true ↔ (keydownHandler st e).1.lastKeyPressed ≠ none)
    ∧ (e.altKey = true → st.altKey = false →
        (keydownHandler st e).1.lastKeyPressed = some .alt)
    ∧ (¬(e.altKey = true ∧ st.altKey = false) → e.ctrlKey = true → st.ctrlKey = false →
        (keydownHandler st e).1.lastKeyPressed = some .ctrl)
    ∧ (¬(e.altKey = true ∧ st.altKey = false) → ¬(e.ctrlKey = true ∧ st.ctrlKey = false) →
        e.shiftKey = true → st.shiftKey = false →
        (keydownHandler st e).1.lastKeyPressed = some .shift)
    ∧ (¬(e.altKey = true ∧ st.altKey = false) → ¬(e.ctrlKey = true ∧ st.ctrlKey = false) →
        ¬(e.shiftKey = true ∧ st.shiftKey = false) →
        (keydownHandler st e).1.lastKeyPressed = none ∧ (keydownHandler st e).2 = false) := by
  rcases st with ⟨sa, ss, sc, lkp, lkr⟩
  rcases e with ⟨ea, ec, es⟩
  cases sa <;> cases ss <;> cases sc <;> cases ea <;> cases ec <;> cases es <;>
    simp [keydownHandler]

/-- Witness for C8's amended theorem: a concrete ctrl-transition key-down,
with every hypothesis discharged. -/
theorem keydownHandler_amended_spec_witness :
    (keydownHandler initialKeyStatus
        { altKey := false, ctrlKey := true, shiftKey := false }).1.lastKeyPressed
      = some ModifierKey.ctrl
    ∧ (keydownHandler initialKeyStatus
        { altKey := false, ctrlKey := true, shiftKey := false }).1.lastKeyReleased
      = none := by
  refine ⟨(keydownHandler_amended_spec initialKeyStatus
    { altKey := false, ctrlKey := true, shiftKey := false }).2.2.2.1 ?_ rfl rfl, ?_⟩
  · simp
  · have h := (keydownHandler_amended_spec initialKeyStatus
      { altKey := false, ctrlKey := true, shiftKey := false }).1
    simpa [initialKeyStatus] using h

/-- C9: for each of `window.enableMenuBarMnemonics`,
`workbench.statusBar.visible` and `workbench.activityBar.visible`, a
stored value that is not a boolean makes the getter return the documented
default `true` (the getters are total — no error is raised). -/
theorem config_nonBool_defaults (c : Configuration)
    (h1 : ∀ b, c.enableMenuBarMnemonics ≠ ConfigValue.vBool b)
    (h2 : ∀ b, c.statusBarVisible ≠ ConfigValue.vBool b)
    (h3 : ∀ b, c.activityBarVisible ≠ ConfigValue.vBool b) :
    currentEnableMenuBarMnemonics c = true
    ∧ currentStatusBarVisibility c = true
    ∧ currentActivityBarVisibility c = true := by
  refine ⟨?_, ?_, ?_⟩
  · unfold currentEnableMenuBarMnemonics
    cases h : c.enableMenuBarMnemonics with
    | vBool b => exact absurd h (h1 b)
    | _ => rfl
  · unfold currentStatusBarVisibility
    cases h : c.statusBarVisible with
    | vBool b => exact absurd h (h2 b)
    | _ => rfl
  · unfold currentActivityBarVisibility
    cases h : c.activityBarVisible with
    | vBool b => exact absurd h (h3 b)
    | _ => rfl

/-- Witness for C9 at a configuration storing strings in all three
boolean settings. -/
theorem config_nonBool_defaults_witness :
    currentEnableMenuBarMnemonics
      { enableMenuBarMnemonics := .vStr "yes", statusBarVisible := .vNull,
        activityBarVisible := .vNum 1, menuBarVisibility := "default" } = true
    ∧ currentStatusBarVisibility
      { enableMenuBarMnemonics := .vStr "yes", statusBarVisible := .vNull,
        activityBarVisible := .vNum 1, menuBarVisibility := "default" } = true
    ∧ currentActivityBarVisibility
      { enableMenuBarMnemonics := .vStr "yes", statusBarVisible := .vNull,
        activityBarVisible := .vNum 1, menuBarVisibility := "default" } = true :=
  config_nonBool_defaults _ (by decide) (by decide) (by decide)

/-- C10: closing an open dropdown through `cleanupCustomMenu` while a menu
is focused discards only the dropdown holder and widget: the focused
index survives unchanged and the `_focusState` field is not modified. -/
theorem cleanupCustomMenu_preserves_index_and_state (s : MenubarPartState)
    (fm : FocusedMenu) (h : s.focusedMenu = some fm) :
    (cleanupCustomMenu s).focusedMenu.map FocusedMenu.index = some fm.index
    ∧ (cleanupCustomMenu s).focusState = s.focusState
    ∧ (cleanupCustomMenu s).focusedMenu
        = some { index := fm.index, holder := false, widget := false } := by
  simp [cleanupCustomMenu, h]

/-- Witness for C10 at a concrete open-menu state. -/
theorem cleanupCustomMenu_preserves_index_and_state_witness :
    (cleanupCustomMenu
      { focusState := .OPEN,
        focusedMenu := some { index := 4, holder := true, widget := true },
        updatePending := false, focusToReturn := false, customMenus := 9,
        config := { enableMenuBarMnemonics := .vBool true,
                    statusBarVisible := .vBool true,
                    activityBarVisible := .vBool true,
                    menuBarVisibility := "default" } }).focusedMenu.map FocusedMenu.index
      = some 4 :=
  (cleanupCustomMenu_preserves_index_and_state _
    { index := 4, holder := true, widget := true } rfl).1

/-! ## Menu snapshot lemmas -/

/-- A list of non-separator entries does not start with a separator. -/
theorem sepFree_noLeading (l : List MAction) (h : ∀ a ∈ l, isSep a = false) :
    NoLeadingSeparator l :=
  fun a ha => h a (List.mem_of_mem_head? ha)

/-- A list of non-separator entries has no adjacent separators. -/
theorem chain'_of_sepFree (l : List MAction) (h : ∀ a ∈ l, isSep a = false) :
    List.Chain' SepOk l := by
  induction l with
  | nil => exact List.chain'_nil
  | cons a t ih =>
      refine List.Chain'.cons' (ih fun x hx => h x (List.mem_cons_of_mem a hx)) ?_
      intro y _
      exact Or.inl (h a (List.mem_cons_self a t))

/-- The recent-entry loop produces only plain actions. -/
theorem recentEntries_sepFree (p : List String) (c : String) :
    ∀ a ∈ recentEntries p c, isSep a = false := by
  intro a ha
  simp only [recentEntries, List.mem_map] at ha
  obtain ⟨b, _, rfl⟩ := ha
  rfl

/-- Keeping the head of a list keeps `NoLeadingSeparator` under appending
on the right. -/
theorem noLeading_append_left (l₁ l₂ : List MAction) (h : NoLeadingSeparator l₁)
    (hne : l₁ ≠ []) : NoLeadingSeparator (l₁ ++ l₂) := by
  cases l₁ with
  | nil => exact absurd rfl hne
  | cons a t =>
      intro y hy
      simp only [List.cons_append, List.head?_cons, Option.mem_def,
        Option.some.injEq] at hy
      subst hy
      exact h a rfl

/-- Concatenating chains whose right part has no leading separator keeps
the no-adjacent-separators property. -/
theorem chain'_append_noLeading (l₁ l₂ : List MAction) (h₁ : List.Chain' SepOk l₁)
    (h₂ : List.Chain' SepOk l₂) (hl : NoLeadingSeparator l₂) :
    List.Chain' SepOk (l₁ ++ l₂) :=
  h₁.append h₂ fun _ _ y hy => Or.inr (hl y hy)

/-- Shape of the recently-opened injection: it never starts with a
separator and never holds two adjacent separators (it may well end with
one). -/
theorem getOpenRecentActions_shape (ro : Option RecentlyOpened) :
    NoLeadingSeparator (getOpenRecentActions ro)
    ∧ List.Chain' SepOk (getOpenRecentActions ro) := by
  cases ro with
  | none =>
      exact ⟨fun a ha => by simp [getOpenRecentActions] at ha, List.chain'_nil⟩
  | some r =>
      have hwsChain : ∀ (p : List String) (c : String),
          List.Chain' SepOk (recentEntries p c ++ [MAction.separator]) := by
        intro p c
        refine (chain'_of_sepFree _ (recentEntries_sepFree p c)).append
          (List.chain'_singleton _) ?_
        intro x hx y _
        exact Or.inl (recentEntries_sepFree p c x (List.mem_of_mem_getLast? hx))
      have hwsLead : ∀ (p : List String) (c : String), p ≠ [] →
          NoLeadingSeparator (recentEntries p c ++ [MAction.separator]) := by
        intro p c hp
        refine noLeading_append_left _ _
          (sepFree_noLeading _ (recentEntries_sepFree p c)) ?_
        cases p with
        | nil => exact absurd rfl hp
        | cons q t => simp [recentEntries, MAX_MENU_RECENT_ENTRIES]
      rw [getOpenRecentActions]
      by_cases hw : 0 < r.workspaces.length
      · have hwne : r.workspaces ≠ [] := by
          cases hr : r.workspaces
          · rw [hr] at hw; simp at hw
          · simp
        rw [if_pos hw]
        by_cases hf : 0 < r.files.length
        · have hfne : r.files ≠ [] := by
            cases hr : r.files
            · rw [hr] at hf; simp at hf
            · simp
          rw [if_pos hf]
          refine ⟨noLeading_append_left _ _ (hwsLead _ _ hwne) (by simp), ?_⟩
          exact chain'_append_noLeading _ _ (hwsChain _ _) (hwsChain _ _)
            (hwsLead _ _ hfne)
        · rw [if_neg hf, List.append_nil]
          exact ⟨hwsLead _ _ hwne, hwsChain _ _⟩
      · rw [if_neg hw, List.nil_append]
        by_cases hf : 0 < r.files.length
        · have hfne : r.files ≠ [] := by
            cases hr : r.files
            · rw [hr] at hf; simp at hf
            · simp
          rw [if_pos hf]
          exact ⟨hwsLead _ _ hfne, hwsChain _ _⟩
        · rw [if_neg hf]
          exact ⟨fun a ha => by simp at ha, List.chain'_nil⟩

/-- Shape of `insertActionsBefore`: same as the injection it delegates
to. -/
theorem insertActionsBefore_shape (ro : Option RecentlyOpened) (a : RegAction) :
    NoLeadingSeparator (insertActionsBefore ro a)
    ∧ List.Chain' SepOk (insertActionsBefore ro a) := by
  rw [insertActionsBefore]
  split
  · exact getOpenRecentActions_shape ro
  · exact ⟨fun x hx => by simp at hx, List.chain'_nil⟩

/-- Appending a single non-separator entry to an injection-shaped list
yields a block with no leading, trailing or adjacent separators. -/
theorem goodBlock_append_single (l : List MAction) (x : MAction)
    (hx : isSep x = false) (hl : NoLeadingSeparator l)
    (hc : List.Chain' SepOk l) : GoodBlock (l ++ [x]) := by
  refine ⟨by simp, ?_, ?_, ?_⟩
  · cases l with
    | nil =>
        intro y hy
        simp only [List.nil_append, List.head?_cons, Option.mem_def,
          Option.some.injEq] at hy
        subst hy
        exact hx
    | cons a t => exact noLeading_append_left _ _ hl (by simp)
  · intro y hy
    rw [List.getLast?_concat] at hy
    simp only [Option.mem_def, Option.some.injEq] at hy
    subst hy
    exact hx
  · refine chain'_append_noLeading _ _ hc (List.chain'_singleton _) ?_
    intro y hy
    simp only [List.head?_cons, Option.mem_def, Option.some.injEq] at hy
    subst hy
    exact hx

/-- Every per-action contribution of `updateActions` is a good block. -/
theorem buildActionEntries_good (ro : Option RecentlyOpened) (a : RegAction) :
    GoodBlock (buildActionEntries ro a) := by
  obtain ⟨hL, hC⟩ := insertActionsBefore_shape ro a
  cases a with
  | act id => exact goodBlock_append_single _ _ rfl hL hC
  | submenu id gs => exact goodBlock_append_single _ _ rfl hL hC

/-- Good blocks are closed under concatenation. -/
theorem goodBlock_append (l₁ l₂ : List MAction) (h₁ : GoodBlock l₁)
    (h₂ : GoodBlock l₂) : GoodBlock (l₁ ++ l₂) := by
  obtain ⟨hne₁, hL₁, hT₁, hC₁⟩ := h₁
  obtain ⟨hne₂, hL₂, hT₂, hC₂⟩ := h₂
  refine ⟨by simp [hne₁], noLeading_append_left _ _ hL₁ hne₁, ?_, ?_⟩
  · intro y hy
    rw [List.getLast?_append_of_ne_nil _ hne₂] at hy
    exact hT₂ y hy
  · exact chain'_append_noLeading _ _ hC₁ hC₂ hL₂

/-- A non-empty group's contribution to `updateActions` is a good block. -/
theorem buildGroupEntries_good (ro : Option RecentlyOpened) (g : List RegAction)
    (h : g ≠ []) : GoodBlock (buildGroupEntries ro g) := by
  induction g with
  | nil => exact absurd rfl h
  | cons a t ih =>
      rw [buildGroupEntries]
      cases t with
      | nil =>
          rw [buildGroupEntries, List.append_nil]
          exact buildActionEntries_good ro a
      | cons b t' =>
          exact goodBlock_append _ _ (buildActionEntries_good ro a)
            (ih (by simp))

/-- Joining two good blocks with a single separator in between yields a
good block. -/
theorem goodBlock_sep_append (l₁ l₂ : List MAction) (h₁ : GoodBlock l₁)
    (h₂ : GoodBlock l₂) : GoodBlock (l₁ ++ [MAction.separator] ++ l₂) := by
  obtain ⟨hne₁, hL₁, hT₁, hC₁⟩ := h₁
  obtain ⟨hne₂, hL₂, hT₂, hC₂⟩ := h₂
  have hmid : List.Chain' SepOk (l₁ ++ [MAction.separator]) := by
    refine hC₁.append (List.chain'_singleton _) ?_
    intro x hx y _
    exact Or.inl (hT₁ x hx)
  refine ⟨by simp [hne₁], ?_, ?_, ?_⟩
  · exact noLeading_append_left _ _ (noLeading_append_left _ _ hL₁ hne₁) (by simp [hne₁])
  · intro y hy
    rw [List.getLast?_append_of_ne_nil _ hne₂] at hy
    exact hT₂ y hy
  · exact chain'_append_noLeading _ _ hmid hC₂ hL₂

/-- `buildGroupsRaw` is non-empty as soon as there is a group. -/
theorem buildGroupsRaw_ne_nil (ro : Option RecentlyOpened)
    (gs : List (List RegAction)) (h : gs ≠ []) : buildGroupsRaw ro gs ≠ [] := by
  cases gs with
  | nil => exact absurd rfl h
  | cons g t => rw [buildGroupsRaw]; simp

/-- `buildGroupsRaw` always ends with the separator pushed after the last
group. -/
theorem buildGroupsRaw_getLast (ro : Option RecentlyOpened)
    (gs : List (List RegAction)) (h : gs ≠ []) :
    (buildGroupsRaw ro gs).getLast? = some MAction.separator := by
  induction gs with
  | nil => exact absurd rfl h
  | cons g t ih =>
      rw [buildGroupsRaw]
      cases t with
      | nil =>
          rw [buildGroupsRaw, List.append_nil, List.getLast?_concat]
      | cons g' t' =>
          rw [List.getLast?_append_of_ne_nil _ (buildGroupsRaw_ne_nil ro _ (by simp))]
          exact ih (by simp)

/-- `updateActions` over a single group is just that group's entries. -/
theorem updateActions_singleton (ro : Option RecentlyOpened) (g : List RegAction) :
    updateActions ro [g] = buildGroupEntries ro g := by
  rw [updateActions, buildGroupsRaw, buildGroupsRaw, List.append_nil,
    List.dropLast_concat]

/-- `updateActions` over at least two groups splits off the first group
and its trailing separator. -/
theorem updateActions_cons (ro : Option RecentlyOpened) (g : List RegAction)
    (gs : List (List RegAction)) (h : gs ≠ []) :
    updateActions ro (g :: gs)
      = (buildGroupEntries ro g ++ [MAction.separator]) ++ updateActions ro gs := by
  rw [updateActions, buildGroupsRaw,
    List.dropLast_append_of_ne_nil _ (buildGroupsRaw_ne_nil ro gs h)]
  rfl

/-- With every group non-empty, the built snapshot is a good block. -/
theorem updateActions_good (ro : Option RecentlyOpened)
    (gs : List (List RegAction)) (hne : gs ≠ []) (hg : ∀ g ∈ gs, g ≠ []) :
    GoodBlock (updateActions ro gs) := by
  induction gs with
  | nil => exact absurd rfl hne
  | cons g t ih =>
      cases t with
      | nil =>
          rw [updateActions_singleton]
          exact buildGroupEntries_good ro g (hg g (by simp))
      | cons g' t' =>
          rw [updateActions_cons ro g _ (by simp)]
          exact goodBlock_sep_append _ _
            (buildGroupEntries_good ro g (hg g (by simp)))
            (ih (by simp) fun x hx => hg x (List.mem_cons_of_mem g hx))

/-- An action that is not the open-recent insertion point contributes no
top-level separators. -/
theorem countSep_buildActionEntries (ro : Option RecentlyOpened) (a : RegAction)
    (h : a.actionId ≠ "workbench.action.openRecent") :
    countSeparators (buildActionEntries ro a) = 0 := by
  cases a with
  | act id =>
      rw [buildActionEntries, insertActionsBefore, if_neg h]
      rfl
  | submenu id gs =>
      rw [buildActionEntries, insertActionsBefore, if_neg h]
      rfl

/-- A group without the open-recent insertion point contributes no
top-level separators. -/
theorem countSep_buildGroupEntries (ro : Option RecentlyOpened)
    (g : List RegAction) (h : ∀ a ∈ g, a.actionId ≠ "workbench.action.openRecent") :
    countSeparators (buildGroupEntries ro g) = 0 := by
  induction g with
  | nil => rfl
  | cons a t ih =>
      rw [buildGroupEntries]
      rw [countSeparators, List.countP_append]
      have h1 := countSep_buildActionEntries ro a (h a (List.mem_cons_self a t))
      have h2 := ih fun x hx => h x (List.mem_cons_of_mem a hx)
      rw [countSeparators] at h1 h2
      omega

/-- Without the open-recent insertion point, `buildGroupsRaw` holds
exactly one separator per group. -/
theorem countSep_buildGroupsRaw (ro : Option RecentlyOpened)
    (gs : List (List RegAction))
    (h : ∀ g ∈ gs, ∀ a ∈ g, a.actionId ≠ "workbench.action.openRecent") :
    countSeparators (buildGroupsRaw ro gs) = gs.length := by
  induction gs with
  | nil => rfl
  | cons g t ih =>
      rw [buildGroupsRaw, countSeparators, List.countP_append, List.countP_append]
      have h1 := countSep_buildGroupEntries ro g (h g (List.mem_cons_self g t))
      have h2 := ih fun x hx => h x (List.mem_cons_of_mem g hx)
      rw [countSeparators] at h1 h2
      simp only [h1, h2, List.countP_cons, List.countP_nil, List.length_cons]
      simp [isSep]
      omega

/-- `hasOpenRecentTrigger = false` means no top-level action carries the
open-recent id. -/
theorem hasOpenRecentTrigger_false_iff (gs : List (List RegAction)) :
    hasOpenRecentTrigger gs = false
      ↔ ∀ g ∈ gs, ∀ a ∈ g, a.actionId ≠ "workbench.action.openRecent" := by
  simp [hasOpenRecentTrigger]

/-- Without open-recent injection, the snapshot holds exactly one
separator fewer than it has groups. -/
theorem countSep_updateActions (ro : Option RecentlyOpened)
    (gs : List (List RegAction)) (hne : gs ≠ [])
    (htrig : hasOpenRecentTrigger gs = false) :
    countSeparators (updateActions ro gs) = gs.length - 1 := by
  have hsplit := List.dropLast_append_getLast? _ (buildGroupsRaw_getLast ro gs hne)
  have hcount := countSep_buildGroupsRaw ro gs
    ((hasOpenRecentTrigger_false_iff gs).mp htrig)
  have hone : List.countP (fun a => isSep a) [MAction.separator] = 1 := rfl
  rw [← hsplit, countSeparators, List.countP_append, hone] at hcount
  rw [updateActions, countSeparators]
  omega

/-- C5 (amended as proved): for groups `G1..Gn` with `n ≥ 1`, when all
groups are non-empty the built snapshot has no leading separator, no
trailing separator and no two adjacent separators (whatever the
recently-opened list holds); and it contains exactly `n - 1` separators
provided additionally no group holds the open-recent insertion point
(injection of recently-opened entries adds further separators). -/
theorem updateActions_separator_structure (ro : Option RecentlyOpened)
    (gs : List (List RegAction)) (hne : gs ≠ []) (hg : ∀ g ∈ gs, g ≠ []) :
    NoLeadingSeparator (updateActions ro gs)
    ∧ NoTrailingSeparator (updateActions ro gs)
    ∧ NoAdjacentSeparators (updateActions ro gs)
    ∧ (hasOpenRecentTrigger gs = false →
        countSeparators (updateActions ro gs) = gs.length - 1) := by
  obtain ⟨_, hL, hT, hC⟩ := updateActions_good ro gs hne hg
  exact ⟨hL, hT, hC, fun ht => countSep_updateActions ro gs hne ht⟩

/-- Witness for C5's amended theorem on two concrete non-empty groups. -/
theorem updateActions_separator_structure_witness :
    NoLeadingSeparator (updateActions none [[RegAction.act "a"], [RegAction.act "b"]])
    ∧ countSeparators (updateActions none [[RegAction.act "a"], [RegAction.act "b"]]) = 1 :=
  ⟨(updateActions_separator_structure none [[RegAction.act "a"], [RegAction.act "b"]]
      (by simp) (by simp)).1,
   (updateActions_separator_structure none [[RegAction.act "a"], [RegAction.act "b"]]
      (by simp) (by simp)).2.2.2 rfl⟩

/-- C5 counterexample: the claim as stated fails on the code.  An empty
first group makes the snapshot `[separator, action]` — a leading
separator despite the claim's "regardless of group emptiness"; and a
single non-empty group holding the open-recent action with one recent
workspace yields 1 separator where the claim demands `n - 1 = 0`. -/
theorem updateActions_separator_claim_counterexample :
    updateActions none [[], [RegAction.act "a"]]
        = [MAction.separator, MAction.act "a"]
    ∧ ¬ NoLeadingSeparator (updateActions none [[], [RegAction.act "a"]])
    ∧ countSeparators (updateActions (some { workspaces := ["w"], files := [] })
        [[RegAction.act "workbench.action.openRecent"]]) = 1 := by
  refine ⟨rfl, ?_, rfl⟩
  intro h
  have hx := h MAction.separator rfl
  simp [isSep] at hx

/-- C6: with the recently-opened list loaded and holding `W` workspaces
and `F` files, the open-recent insertion expands to `min W 5` workspace
entries, a separator iff `W > 0`, `min F 5` file entries, and a separator
iff `F > 0`; it is empty when both lists are empty, and empty when the
list has not been loaded yet. -/
theorem getOpenRecentActions_expansion (ws fs : List String) :
    getOpenRecentActions (some { workspaces := ws, files := fs })
      = List.replicate (min ws.length 5) (MAction.act "openRecentWorkspace")
        ++ (if 0 < ws.length then [MAction.separator] else [])
        ++ (List.replicate (min fs.length 5) (MAction.act "openRecentFile")
        ++ (if 0 < fs.length then [MAction.separator] else []))
    ∧ getOpenRecentActions none = []
    ∧ (ws = [] → fs = [] →
        getOpenRecentActions (some { workspaces := ws, files := fs }) = []) := by
  have hrepl : ∀ (p : List String) (c : String),
      recentEntries p c = List.replicate (min p.length 5) (MAction.act c) := by
    intro p c
    rw [recentEntries, List.map_const', List.length_take, MAX_MENU_RECENT_ENTRIES,
      Nat.min_comm]
  refine ⟨?_, rfl, ?_⟩
  · rw [getOpenRecentActions]
    simp only [hrepl]
    by_cases hw : 0 < ws.length
    · by_cases hf : 0 < fs.length
      · simp [hw, hf]
      · have hf0 : fs.length = 0 := by omega
        simp [hw, hf, hf0]
    · have hw0 : ws.length = 0 := by omega
      by_cases hf : 0 < fs.length
      · simp [hw, hf, hw0]
      · have hf0 : fs.length = 0 := by omega
        simp [hw, hf, hw0, hf0]
  · intro hws hfs
    subst hws; subst hfs
    rfl

/-- Witness for C6 at two workspaces and one file. -/
theorem getOpenRecentActions_expansion_witness :
    getOpenRecentActions (some { workspaces := ["w1", "w2"], files := ["f1"] })
      = List.replicate 2 (MAction.act "openRecentWorkspace")
        ++ [MAction.separator]
        ++ (List.replicate 1 (MAction.act "openRecentFile") ++ [MAction.separator]) := by
  have h := (getOpenRecentActions_expansion ["w1", "w2"] ["f1"]).1
  simpa using h

end Menubar
